import Mathlib

/-!
Verification development for the c64uploader C64 client
(`src/c64client/src/main.c`, `src/c64client/src/ultimate.c`).

The development shallowly embeds three layers of the program:

* the catalog protocol client of `main.c` (`load_categories`,
  `load_entries`, `do_search`, `do_adv_search`, `fetch_info`), modelled as
  pure functions over the list of response lines read from the server
  (a line is a `List Char`, as produced by `uci_tcp_nextline`);
* the Ultimate II+ driver of `ultimate.c` (`uci_sendcommand`, the socket
  line reader `uci_tcp_nextchar` / `uci_tcp_nextline`, and the buffer
  state effect of socket writes and connects), modelled with explicit
  state records; hardware register reads are an oracle list of the values
  the volatile register yields on successive reads;
* the navigation state machine of `main`, modelled as a transition
  function on a record of the globals of `main.c`, parameterised by the
  response lines a transition's single protocol call reads.
-/

namespace C64Client

/-- Lines of the wire protocol, as byte/character sequences. -/
abbrev Line := List Char

/-- Decide whether a character is an ASCII decimal digit (`'0'..'9'`). -/
def isDigitCh (c : Char) : Bool := '0' ≤ c && c ≤ '9'

/-- Decide whether a character counts as whitespace for C `atoi`
(space, tab, newline, vertical tab, form feed, carriage return). -/
def isSpaceCh (c : Char) : Bool :=
  c = ' ' || c = '\t' || c = '\n' || c.toNat = 11 || c.toNat = 12 || c.toNat = 13

/-- Accumulate the leading decimal digits of a character list into a
natural number, stopping at the first non-digit (the digit loop of `atoi`). -/
def digitsAcc : List Char → Nat → Nat
  | [], acc => acc
  | c :: rest, acc =>
      if isDigitCh c then digitsAcc rest (acc * 10 + (c.toNat - 48)) else acc

/-- C `atoi` on a character list: skip leading whitespace, consume an
optional sign, then the leading digits; `0` when there are no digits. -/
def atoiChars (l : List Char) : Int :=
  match l.dropWhile (fun c => isSpaceCh c) with
  | '-' :: rest => -(digitsAcc rest 0 : Int)
  | '+' :: rest => (digitsAcc rest 0 : Int)
  | rest => (digitsAcc rest 0 : Int)

/-- Model of C `strchr` followed by splitting at the found separator:
`some (before, after)` for the first occurrence of `sep`, `none` when the
character does not occur. -/
def strchrSplit (sep : Char) : List Char → Option (List Char × List Char)
  | [] => none
  | c :: rest =>
      if c = sep then some ([], rest)
      else
        match strchrSplit sep rest with
        | some (a, b) => some (c :: a, b)
        | none => none

/-- Test of `line_buffer[0] == c`: the first character of a line equals
`c` (false for the empty line, whose first byte is the NUL terminator). -/
def headIs (c : Char) (l : Line) : Bool :=
  match l with
  | [] => false
  | x :: _ => x = c

/-- The `parse_ok_count` helper of `main.c`: skip the three characters
`"OK "` of the header and convert the remainder with `atoi`. -/
def parse_ok_count (l : Line) : Int := atoiChars (l.drop 3)

/-- Header parsing step shared by `load_entries`, `do_search` and
`do_adv_search`: on header line `l`, read `n = atoi(l+3)`, then look for a
space after position 3 and read the total after it; when there is no
space, `total_count` keeps its previous value `oldTotal`. -/
def entriesHeader (l : Line) (oldTotal : Int) : Int × Int :=
  let p := l.drop 3
  let n := atoiChars p
  match strchrSplit ' ' p with
  | some (_, after) => (n, atoiChars after)
  | none => (n, oldTotal)

/-- Parse one category body line `"Category|count"` of `load_categories`:
the name before the first `'|'` (truncated by `strncpy(..,31)`) and the
count after it (stored into `item_ids`). `none` when the line has no
separator, in which case the line is silently discarded. -/
def parseCatLine (l : Line) : Option (Int × List Char) :=
  match strchrSplit '|' l with
  | some (name, cnt) => some (atoiChars cnt, name.take 31)
  | none => none

/-- Parse one entry body line `"id|name|group|year|type"` of
`load_entries` / `do_search` / `do_adv_search`: the id before the first
`'|'`, the name up to the next `'|'` (or the rest of the line when there
is no further separator), truncated to 31 characters. -/
def parseEntryLine (l : Line) : Option (Int × List Char) :=
  match strchrSplit '|' l with
  | none => none
  | some (idStr, rest) =>
      let name :=
        match strchrSplit '|' rest with
        | some (n, _) => n
        | none => rest
      some (atoiChars idStr, name.take 31)

/-- Body loop of `load_categories`: `while (item_count < MAX_ITEMS)` read
a line, stop on a line whose first character is `'.'`, keep lines with a
`'|'` separator. Returns the retained items and the lines left unread.
When the cap of 20 is reached the loop exits without reading further, so
any remaining body lines and the terminator stay in the stream. When the
line list is exhausted the model returns with an empty remainder (the C
code would spin on empty end-of-file lines at that point). -/
def loadCatsLoop (count : Nat) (acc : List (Int × List Char)) :
    List Line → List (Int × List Char) × List Line
  | [] => (acc, [])
  | l :: rest =>
      if 20 ≤ count then (acc, l :: rest)
      else if headIs '.' l then (acc, rest)
      else
        match parseCatLine l with
        | some item => loadCatsLoop (count + 1) (acc ++ [item]) rest
        | none => loadCatsLoop count acc rest

/-- Result of `load_categories`: the parsed `total_count`, the retained
items (`item_ids[i]` holds the category count, `item_names[i]` the name),
and the response lines left unread in the stream when the function
returns. `cursor` and `offset` are both reset to 0 by the C code; the
navigation layer applies that. -/
structure CatsResult where
  total : Int
  items : List (Int × List Char)
  rest : List Line
  deriving DecidableEq

/-- The `load_categories` operation of `main.c` over the response lines:
read the header line, parse `total_count` from it, then run the body
loop. -/
def load_categories (lines : List Line) : CatsResult :=
  let header := lines.headD []
  let body := lines.tail
  let r := loadCatsLoop 0 [] body
  { total := parse_ok_count header, items := r.1, rest := r.2 }

/-- Body loop shared verbatim by `load_entries`, `do_search` and
`do_adv_search`: `while (item_count < MAX_ITEMS && item_count < n)` read
a line, stop on a terminator line, keep lines with a separator. Returns
the retained items, the unread lines, and the last line read (the C
`line_buffer` contents when the loop exits), which the subsequent drain
loop inspects. `last` starts out holding the header line. -/
def entriesLoop (n : Int) (count : Nat) (acc : List (Int × List Char))
    (last : Line) : List Line → List (Int × List Char) × List Line × Line
  | [] => if 20 ≤ count ∨ n ≤ (count : Int) then (acc, [], last) else (acc, [], [])
  | l :: rest =>
      if 20 ≤ count ∨ n ≤ (count : Int) then (acc, l :: rest, last)
      else if headIs '.' l then (acc, rest, l)
      else
        match parseEntryLine l with
        | some item => entriesLoop n (count + 1) (acc ++ [item]) l rest
        | none => entriesLoop n count acc l rest

/-- Drain loop `while (line_buffer[0] != '.') read_line();` of
`load_entries`, `do_search`, `do_adv_search` and `fetch_info`: starting
from the last line read, consume lines until one begins with `'.'` and
return the lines after it (empty when the list is exhausted first). -/
def drainToTerm (last : Line) : List Line → List Line
  | [] => []
  | l :: rest => if headIs '.' last then l :: rest else drainToTerm l rest

/-- Result of `load_entries` (and of the identically-coded response part
of `do_search` / `do_adv_search`): retained items, updated `total_count`,
the `offset` (set to the requested start), and the lines left unread
after the drain loop. -/
structure PageLoad where
  items : List (Int × List Char)
  total : Int
  offset : Int
  rest : List Line
  deriving DecidableEq

/-- The `load_entries` operation of `main.c` over the response lines:
parse `n` and the total from the header, run the body loop (capped at
`MAX_ITEMS = 20` and at `n`), then drain the remainder of the response up
to and including the terminator line. `oldTotal` is the previous value of
the `total_count` global, kept when the header has no second field.
`do_search` and `do_adv_search` contain character-for-character the same
header parse, body loop and drain; the navigation layer reuses this
definition for them. -/
def load_entries (start oldTotal : Int) (lines : List Line) : PageLoad :=
  let header := lines.headD []
  let body := lines.tail
  let nt := entriesHeader header oldTotal
  let r := entriesLoop nt.1 0 [] header body
  { items := r.1, total := nt.2, offset := start,
    rest := drainToTerm r.2.2 r.2.1 }

/-- Body loop of `fetch_info`: `while (info_line_count < MAX_INFO_LINES)`
read a line, stop on a terminator line, and keep a `"LABEL|value"` line
only when the value after the separator is non-empty (labels truncated to
7 characters, values to 31). Returns retained pairs, unread lines, and
the last line read. -/
def infoLoop (count : Nat) (acc : List (List Char × List Char))
    (last : Line) : List Line → List (List Char × List Char) × List Line × Line
  | [] => if 12 ≤ count then (acc, [], last) else (acc, [], [])
  | l :: rest =>
      if 12 ≤ count then (acc, l :: rest, last)
      else if headIs '.' l then (acc, rest, l)
      else
        match strchrSplit '|' l with
        | some (label, value) =>
            if value = [] then infoLoop count acc l rest
            else infoLoop (count + 1) (acc ++ [(label.take 7, value.take 31)]) l rest
        | none => infoLoop count acc l rest

/-- The `fetch_info` operation of `main.c` over the response lines:
read the header; when its first character is `'E'`, report failure and
leave the previously stored info lines (`prev`) untouched; otherwise run
the body loop, drain to the terminator, and succeed exactly when at least
one line was retained. Returns (success flag, info lines, unread lines). -/
def fetch_info (prev : List (List Char × List Char)) (lines : List Line) :
    Bool × List (List Char × List Char) × List Line :=
  let header := lines.headD []
  let body := lines.tail
  if headIs 'E' header then (false, prev, body)
  else
    let r := infoLoop 0 [] header body
    (r.1.length > 0, r.1, drainToTerm r.2.2 r.2.1)

/-- The `search_cat_names` table of `main.c` (index clamped: the C code
only ever indexes it with 0..3). -/
def search_cat_names : Nat → String
  | 0 => "All"
  | 1 => "Games"
  | 2 => "Demos"
  | _ => "Music"

/-- The `adv_type_names` table of `main.c` (index 0..4). -/
def adv_type_names : Nat → String
  | 0 => "Any"
  | 1 => "prg"
  | 2 => "d64"
  | 3 => "crt"
  | _ => "sid"

/-- Command string built by `do_adv_search`: start from
`"ADVSEARCH <start> 20"` and append one clause per filter field that is
set (`adv_category > 0`, `adv_title[0]`, `adv_group[0]`, `adv_type > 0`,
`adv_top200`), in that order. -/
def adv_search_command (start : Int) (cat : Nat) (title group : String)
    (ty : Nat) (top200 : Bool) : String :=
  let cmd := "ADVSEARCH " ++ toString start ++ " 20"
  let cmd := if cat > 0 then cmd ++ " cat=" ++ search_cat_names cat else cmd
  let cmd := if title ≠ "" then cmd ++ " title=" ++ title else cmd
  let cmd := if group ≠ "" then cmd ++ " group=" ++ group else cmd
  let cmd := if ty > 0 then cmd ++ " type=" ++ adv_type_names ty else cmd
  if top200 then cmd ++ " top200=1" else cmd

/-! ## Ultimate II+ driver (`ultimate.c`)

The socket line reader keeps three pieces of state in `ultimate.c`:
the shared response buffer `uci_data`, the read position `uci_data_index`
and the buffered payload length `uci_data_len`.  The bytes that future
`uci_socket_read` calls will deliver are modelled as an oracle list of
chunks: `none` models the distinguished `-1` "retry" return, `some c`
models a successful read delivering payload `c` (`some []` is an
end-of-file read of length 0).  A `NET_CMD_SOCKET_READ` response places a
two-byte little-endian length in `uci_data[0..1]` followed by the
payload, which is why `uci_tcp_nextchar` reads `uci_data[index + 2]`. -/

/-- One future result of `uci_socket_read`: `none` is the `-1` retry
sentinel, `some c` a read delivering payload `c`. -/
abbrev SockChunk := Option (List Nat)

/-- Line-reader state of `ultimate.c`: the `uci_data` buffer contents,
`uci_data_index`, `uci_data_len`, and the oracle of future socket-read
results. -/
structure NetState where
  data : List Nat
  index : Nat
  len : Int
  chunks : List SockChunk
  deriving DecidableEq

/-- The `uci_socket_read` model: consume the next oracle chunk, overwrite
`uci_data` with the channel response (two length bytes then the payload),
and return `uci_data[0] | uci_data[1] << 8`.  It does not touch
`uci_data_index` or `uci_data_len` (the caller `uci_tcp_nextchar` stores
the returned length).  An exhausted oracle behaves as an end-of-file
read of length 0. -/
def uci_socket_read (s : NetState) : Int × NetState :=
  match s.chunks with
  | [] => (0, { s with data := [0, 0], chunks := [] })
  | none :: rest => (-1, { s with data := [255, 255], chunks := rest })
  | some c :: rest =>
      ((c.length : Int),
       { s with data := c.length % 256 :: c.length / 256 :: c, chunks := rest })

/-- The refill loop inside `uci_tcp_nextchar`:
`do { len = uci_socket_read(...); if (len == 0) return 0; } while (len == -1);`
then return `uci_data[2]` and set `uci_data_index = 1`.  `idx` is the
incoming `uci_data_index`, untouched on the end-of-file path. -/
def refill (idx : Nat) : List SockChunk → Nat × NetState
  | [] => (0, { data := [0, 0], index := idx, len := 0, chunks := [] })
  | none :: rest => refill idx rest
  | some [] :: rest =>
      (0, { data := [0, 0], index := idx, len := 0, chunks := rest })
  | some (b :: c) :: rest =>
      (b, { data := (b :: c).length % 256 :: (b :: c).length / 256 :: b :: c,
            index := 1, len := ((b :: c).length : Int), chunks := rest })

/-- The `uci_tcp_nextchar` convenience reader: return the next buffered
payload byte when `uci_data_index < uci_data_len`, otherwise refill the
buffer from the socket; a result of 0 signals end of file. -/
def uci_tcp_nextchar (s : NetState) : Nat × NetState :=
  if (s.index : Int) < s.len then
    (s.data.getD (s.index + 2) 0, { s with index := s.index + 1 })
  else refill s.index s.chunks

/-- Weight of one oracle chunk, used for the termination measure of the
line loop: a retry costs one read, a payload chunk one read plus its
bytes. -/
def chunkW : SockChunk → Nat
  | none => 1
  | some c => c.length + 1

/-- Total weight of an oracle. -/
def chunksW (l : List SockChunk) : Nat := (l.map chunkW).sum

/-- Termination measure for the line loop: bytes still buffered plus the
weight of the unread oracle. -/
def NetState.meas (s : NetState) : Nat :=
  (s.len - (s.index : Int)).toNat + chunksW s.chunks

/-- PETSCII/ASCII case swap applied by `uci_tcp_nextline_internal` when
`swapcase` is set. -/
def swapCase (c : Nat) : Nat :=
  if (97 ≤ c ∧ c ≤ 122) ∨ (193 ≤ c ∧ c ≤ 218) then c &&& 95
  else if 65 ≤ c ∧ c ≤ 90 then c ||| 32
  else c

/-- Refill result state never weighs more than the consumed oracle, and
weighs strictly less whenever the returned byte is non-zero. -/
theorem refill_meas (idx : Nat) (chunks : List SockChunk) :
    ((refill idx chunks).2.meas ≤ chunksW chunks) ∧
      ((refill idx chunks).1 ≠ 0 → (refill idx chunks).2.meas < chunksW chunks) := by
  induction chunks with
  | nil =>
      simp [refill, NetState.meas, chunksW]
  | cons c rest ih =>
      match c with
      | none =>
          refine ⟨?_, fun h => ?_⟩
          · exact le_trans ih.1 (by simp [chunksW, chunkW])
          · exact lt_of_lt_of_le (ih.2 h) (by simp [chunksW, chunkW])
      | some [] =>
          simp [refill, NetState.meas, chunksW, chunkW]
      | some (b :: cs) =>
          refine ⟨?_, fun _ => ?_⟩ <;>
            simp [refill, NetState.meas, chunksW, chunkW] <;> omega

/-- A non-zero `uci_tcp_nextchar` result strictly decreases the measure. -/
theorem nextchar_meas (s : NetState) (h : (uci_tcp_nextchar s).1 ≠ 0) :
    (uci_tcp_nextchar s).2.meas < s.meas := by
  unfold uci_tcp_nextchar at h ⊢
  by_cases hb : (s.index : Int) < s.len
  · rw [if_pos hb] at h ⊢
    simp only [NetState.meas]
    have h2 : (s.len - ((s.index + 1 : Nat) : Int)).toNat
        < (s.len - (s.index : Int)).toNat := by
      push_cast
      omega
    exact Nat.add_lt_add_right h2 _
  · rw [if_neg hb] at h ⊢
    have h3 := (refill_meas s.index s.chunks).2 h
    have h4 : chunksW s.chunks ≤ s.meas := Nat.le_add_left _ _
    exact lt_of_lt_of_le h3 h4

/-- Line-accumulation loop of `uci_tcp_nextline_internal`: repeatedly call
`uci_tcp_nextchar`, stop at a result of 0 (end of file) or 0x0A
(line feed), skip 0x0D (carriage return), and store every other byte
(case-swapped when `swap` is set).  Returns the stored bytes, the
terminating character and the final reader state. -/
def nextlineAux (swap : Bool) (s : NetState) : List Nat × Nat × NetState :=
  match h : uci_tcp_nextchar s with
  | (c, s') =>
      if h0 : c = 0 ∨ c = 10 then ([], c, s')
      else if c = 13 then nextlineAux swap s'
      else
        let r := nextlineAux swap s'
        ((if swap then swapCase c else c) :: r.1, r.2.1, r.2.2)
termination_by s.meas
decreasing_by
  all_goals
    have hc : (uci_tcp_nextchar s).1 ≠ 0 := by
      rw [h]
      exact fun hz => h0 (Or.inl hz)
    have hm := nextchar_meas s hc
    rw [h] at hm
    simpa using hm

/-- The `uci_tcp_nextline` reader (`swapcase = false`): the assembled
line, the returned flag `c != 0 || count > 0`, and the final state. -/
def uci_tcp_nextline (s : NetState) : List Nat × Bool × NetState :=
  let r := nextlineAux false s
  (r.1, r.2.1 != 0 || r.1.length != 0, r.2.2)

/-- The `uci_tcp_nextline_ascii` reader (`swapcase = true`). -/
def uci_tcp_nextline_ascii (s : NetState) : List Nat × Bool × NetState :=
  let r := nextlineAux true s
  (r.1, r.2.1 != 0 || r.1.length != 0, r.2.2)

/-- PETSCII-to-ASCII conversion applied per byte by
`uci_socket_write_internal` when its `ascii` flag is set. -/
def petsciiToAscii (c : Nat) : Nat :=
  if (97 ≤ c ∧ c ≤ 122) ∨ (193 ≤ c ∧ c ≤ 218) then c &&& 95
  else if 65 ≤ c ∧ c ≤ 90 then c ||| 32
  else if c = 13 then 10
  else c

/-- Command frame built by `uci_socket_write_internal`: target
placeholder byte (filled in by `uci_sendcommand`), the
`NET_CMD_SOCKET_WRITE` opcode 0x11, the socket id, then the data bytes,
converted when `ascii` is set. -/
def uci_socket_write_frame (socketid : Nat) (data : List Nat) (ascii : Bool) :
    List Nat :=
  0 :: 0x11 :: socketid :: data.map (fun c => if ascii then petsciiToAscii c else c)

/-- Reader-state effect of `uci_socket_write_internal`: the channel
response of the write command overwrites `uci_data` (via
`uci_readdata`), and both `uci_data_index` and `uci_data_len` are reset
to 0 before returning.  `resp` is the response the channel delivers. -/
def uci_socket_write_internal (s : NetState) (resp : List Nat) : NetState :=
  { data := resp, index := 0, len := 0, chunks := s.chunks }

/-- Reader-state effect of `uci_socket_write` (`ascii = false`). -/
def uci_socket_write (s : NetState) (resp : List Nat) : NetState :=
  uci_socket_write_internal s resp

/-- Reader-state effect of `uci_socket_write_ascii` (`ascii = true`). -/
def uci_socket_write_ascii (s : NetState) (resp : List Nat) : NetState :=
  uci_socket_write_internal s resp

/-- Reader-state effect of `uci_socket_write_char`, which wraps the
single character as a one-byte string and calls `uci_socket_write`. -/
def uci_socket_write_char (s : NetState) (resp : List Nat) : NetState :=
  uci_socket_write s resp

/-- Reader-state effect of the static `uci_connect` helper: the connect
response overwrites `uci_data`, `uci_data_index` and `uci_data_len` are
reset to 0, and `uci_data[0]` is returned as the socket id. -/
def uci_connect (s : NetState) (resp : List Nat) : Nat × NetState :=
  (resp.getD 0 0, { data := resp, index := 0, len := 0, chunks := s.chunks })

/-- The `uci_tcp_connect` wrapper of `uci_connect`. -/
def uci_tcp_connect (s : NetState) (resp : List Nat) : Nat × NetState :=
  uci_connect s resp

/-- The `uci_udp_connect` wrapper of `uci_connect`. -/
def uci_udp_connect (s : NetState) (resp : List Nat) : Nat × NetState :=
  uci_connect s resp

/-! ## Command channel driver (`uci_sendcommand`)

`uci_sendcommand` busy-polls the volatile status register at `$DF1C`.
The values the register yields on successive reads are modelled as an
oracle list of bytes, consumed one read at a time (each evaluation of the
C `&&` conditions performs one or two separate volatile reads).  The
observable effect of the function is the sequence of writes to the
command-data register and the control register; the model returns `none`
when the oracle is exhausted before the function returns, i.e. when the
run would still be waiting on the hardware. -/

/-- One observable write of the command channel driver: a byte to
`UCI_CMD_DATA_REG` or a value to `UCI_CONTROL_REG`. -/
inductive ChanEv where
  | data (b : Nat)
  | ctrl (v : Nat)
  deriving DecidableEq

/-- Idle wait of `uci_sendcommand`:
`while (!((st & 0x20) == 0 && (st & 0x10) == 0));` where every
mention of the status register is one volatile read.  Returns the
remaining oracle once a read pair shows both state bits clear. -/
def waitIdle : List Nat → Option (List Nat)
  | [] => none
  | a :: rest =>
      if a &&& 0x20 ≠ 0 then waitIdle rest
      else
        match rest with
        | [] => none
        | b :: rest2 => if b &&& 0x10 ≠ 0 then waitIdle rest2 else some rest2
termination_by l => l.length

/-- Completion wait of `uci_sendcommand`:
`while ((st & 0x20) == 0 && (st & 0x10) == 0x10);` (busy = state bit 4
set while bit 5 clear). -/
def waitComplete : List Nat → Option (List Nat)
  | [] => none
  | a :: rest =>
      if a &&& 0x20 ≠ 0 then some rest
      else
        match rest with
        | [] => none
        | b :: rest2 => if b &&& 0x10 = 0x10 then waitComplete rest2 else some rest2
termination_by l => l.length

/-- A successful idle wait consumes at least two status reads. -/
theorem waitIdle_length (l : List Nat) :
    ∀ rest, waitIdle l = some rest → rest.length + 2 ≤ l.length := by
  induction l using waitIdle.induct with
  | case1 => intro rest h; simp [waitIdle] at h
  | case2 b rest2 hb ih =>
      intro rest h
      rw [waitIdle.eq_def] at h
      simp only [if_pos hb] at h
      have := ih rest h
      simp only [List.length_cons]
      omega
  | case3 b hb =>
      intro rest h
      rw [waitIdle.eq_def] at h
      simp [hb] at h
  | case4 b hb b1 rest2 hb1 ih =>
      intro rest h
      rw [waitIdle.eq_def] at h
      simp only [if_neg hb, if_pos hb1] at h
      have := ih rest h
      simp only [List.length_cons]
      omega
  | case5 b hb b1 rest2 hb1 =>
      intro rest h
      rw [waitIdle.eq_def] at h
      simp only [if_neg hb, if_neg hb1, Option.some.injEq] at h
      subst h
      simp only [List.length_cons]
      omega

/-- The retry loop of `uci_sendcommand` on the full frame (whose first
byte has already been replaced by the target id): wait for idle, write
every frame byte to the command-data register, push with
`UCI_CTRL_PUSH_CMD` (0x01); then read the status register once: if
`UCI_STAT_ERROR` (0x08) is set, write `UCI_CTRL_CLR_ERR` (0x08) and start
the whole submission over; otherwise wait for completion and return.
Returns the write trace and the unconsumed status oracle, or `none` when
the oracle ran out while the function was still polling or retrying. -/
def sendLoop (frame : List Nat) (statuses : List Nat) :
    Option (List ChanEv × List Nat) :=
  match hIdle : waitIdle statuses with
  | none => none
  | some st1 =>
      match st1 with
      | [] => none
      | e :: st2 =>
          if e &&& 0x08 ≠ 0 then
            match sendLoop frame st2 with
            | none => none
            | some (tr, rest) =>
                some (frame.map ChanEv.data ++ [ChanEv.ctrl 0x01, ChanEv.ctrl 0x08] ++ tr,
                      rest)
          else
            match waitComplete st2 with
            | none => none
            | some st3 => some (frame.map ChanEv.data ++ [ChanEv.ctrl 0x01], st3)
termination_by statuses.length
decreasing_by
  have := waitIdle_length statuses (e :: st2) hIdle
  simp at this ⊢
  omega

/-- The `uci_sendcommand` model: the C function first overwrites
`bytes[0]` with the current target id, then runs the retry loop. -/
def uci_sendcommand (target : Nat) (frame : List Nat) (statuses : List Nat) :
    Option (List ChanEv × List Nat) :=
  sendLoop (target :: frame.tail) statuses

/-- Write trace of `k` failed submissions (each fully written, pushed,
and its error cleared) followed by one final successful submission. -/
def submissionTrace (frame : List Nat) : Nat → List ChanEv
  | 0 => frame.map ChanEv.data ++ [ChanEv.ctrl 0x01]
  | k + 1 => frame.map ChanEv.data ++ [ChanEv.ctrl 0x01, ChanEv.ctrl 0x08]
        ++ submissionTrace frame k

/-! ## Navigation state machine (`main` of `main.c`)

The key-dispatch loop of `main` is modelled as a transition function on a
record of the mutable globals of `main.c`.  A transition issues at most
one protocol command; `resp` is the list of response lines that this
command's reply consists of (unused when no command is sent).  The
commands sent over the socket are reported as an output list of `Cmd`
values carrying the arguments that `main.c` formats into the command
line. -/

/-- The pages of `main.c` (`PAGE_CATS = 0` .. `PAGE_INFO = 6`). -/
inductive Page where
  | cats | list | search | settings | advSearch | advResults | info
  deriving DecidableEq

/-- The key values `get_key` can deliver to the dispatch switch of
`main`: `quit = 'q'`, `config = 'c'`, `slash = '/'`, `tab`, `up = 'u'`,
`down = 'd'`, `space`, `right = '>'`, `enter`, `back` (backspace, 8),
`next = 'n'`, `prev = 'p'`, `infoKey = 'i'`, `exitInfo = 'x'`, and
`char c` for a typed character falling through to the default case. -/
inductive Key where
  | quit | config | slash | tab | up | down | space | right | enter | back
  | next | prev | infoKey | exitInfo | char (c : Char)
  deriving DecidableEq

/-- A protocol command sent by a transition, with the arguments that
`main.c` formats into the command line (`CATS`, `LIST`, `SEARCH`,
`ADVSEARCH`, `INFO`, `RUN`). -/
inductive Cmd where
  | cats
  | listCmd (category : List Char) (offset : Int)
  | searchCmd (query : List Char) (cat : Nat) (offset : Int)
  | advCmd (offset : Int)
  | infoCmd (id : Int)
  | runCmd (id : Int)
  deriving DecidableEq

/-- The mutable globals of `main.c` that the dispatch loop reads and
writes.  `items` combines the parallel arrays `item_ids`/`item_names`
with `item_count = items.length`; `search_query` carries
`search_query_len = search_query.length`; `server_host` carries
`settings_edit_pos = server_host.length` (the edit position is always
kept at the end of the string). -/
structure NavState where
  page : Page
  items : List (Int × List Char)
  total_count : Int
  cursor : Int
  offset : Int
  current_category : List Char
  search_query : List Char
  search_category : Nat
  adv_cursor : Nat
  adv_editing : Bool
  adv_category : Nat
  adv_title : String
  adv_group : String
  adv_type : Nat
  adv_top200 : Bool
  settings_cursor : Nat
  settings_editing : Bool
  server_host : List Char
  info_return_page : Page
  info : List (List Char × List Char)
  deriving DecidableEq

/-- State effect of calling `load_categories()` from the dispatch loop:
send `CATS`, parse the response, reset `cursor` and `offset`, switch to
the categories page. -/
def load_categories_nav (s : NavState) (resp : List Line) : NavState × List Cmd :=
  let r := load_categories resp
  ({ s with items := r.items, total_count := r.total, cursor := 0, offset := 0,
            page := .cats },
   [Cmd.cats])

/-- State effect of calling `load_entries(category, start)`: send
`LIST <category> <start> 20`, parse the response, set `offset := start`,
reset the cursor, switch to the list page. -/
def load_entries_nav (s : NavState) (category : List Char) (start : Int)
    (resp : List Line) : NavState × List Cmd :=
  let r := load_entries start s.total_count resp
  ({ s with items := r.items, total_count := r.total, offset := start,
            cursor := 0, page := .list },
   [Cmd.listCmd category start])

/-- State effect of calling `do_search(search_query, start)`: send the
`SEARCH` command (category token included when the filter is not All),
parse the response (identical code to `load_entries`), reset the cursor,
switch to the search page. -/
def do_search_nav (s : NavState) (start : Int) (resp : List Line) :
    NavState × List Cmd :=
  let r := load_entries start s.total_count resp
  ({ s with items := r.items, total_count := r.total, offset := start,
            cursor := 0, page := .search },
   [Cmd.searchCmd s.search_query s.search_category start])

/-- State effect of calling `do_adv_search(start)`: send the `ADVSEARCH`
command built from the filter fields, parse the response (identical code
to `load_entries`), reset the cursor.  The page is not changed by
`do_adv_search` itself. -/
def do_adv_search_nav (s : NavState) (start : Int) (resp : List Line) :
    NavState × List Cmd :=
  let r := load_entries start s.total_count resp
  ({ s with items := r.items, total_count := r.total, offset := start,
            cursor := 0 },
   [Cmd.advCmd start])

/-- The category-selection path shared by the `'>'` and Enter cases on
the categories page: copy `item_names[cursor]` into `current_category`
and call `load_entries(current_category, 0)`.  When the item list is
empty the C code reads a stale array slot; the model supplies the
default pair. -/
def enterCategory (s : NavState) (resp : List Line) : NavState × List Cmd :=
  let name := (s.items.getD s.cursor.toNat (0, [])).2
  load_entries_nav { s with current_category := name } name 0 resp

/-- One transition of the dispatch loop of `main` on key `k`: the new
state and the protocol commands sent (at most one).  Mirrors the
`switch (key)` of `main.c` case by case. -/
def step (s : NavState) (k : Key) (resp : List Line) : NavState × List Cmd :=
  match k with
  | .quit => (s, [])
  | .config =>
      if s.page = .cats then
        ({ s with page := .settings, settings_cursor := 0,
                  settings_editing := false }, [])
      else (s, [])
  | .slash =>
      if s.page = .cats then
        ({ s with page := .advSearch, adv_cursor := 0, adv_editing := false,
                  adv_category := 0, adv_title := "", adv_group := "",
                  adv_type := 0, adv_top200 := false,
                  items := [], total_count := 0, cursor := 0, offset := 0 }, [])
      else (s, [])
  | .tab =>
      if s.page = .search then
        let s1 := { s with search_category := (s.search_category + 1) % 4 }
        if 2 ≤ s1.search_query.length then do_search_nav s1 0 resp
        else (s1, [])
      else (s, [])
  | .up =>
      match s.page with
      | .settings =>
          if 0 < s.settings_cursor then
            ({ s with settings_cursor := s.settings_cursor - 1 }, [])
          else (s, [])
      | .advSearch =>
          if 0 < s.adv_cursor then
            ({ s with adv_cursor := s.adv_cursor - 1 }, [])
          else (s, [])
      | .advResults =>
          if 0 < s.cursor then ({ s with cursor := s.cursor - 1 }, [])
          else if 0 < s.offset then
            let newOffset := max (s.offset - 20) 0
            let r := do_adv_search_nav s newOffset resp
            ({ r.1 with cursor := min ((r.1.items.length : Int) - 1) 18 }, r.2)
          else (s, [])
      | _ =>
          if 0 < s.cursor then ({ s with cursor := s.cursor - 1 }, [])
          else (s, [])
  | .down =>
      match s.page with
      | .settings =>
          if s.settings_cursor < 1 then
            ({ s with settings_cursor := s.settings_cursor + 1 }, [])
          else (s, [])
      | .advSearch =>
          if s.adv_cursor < 5 then
            ({ s with adv_cursor := s.adv_cursor + 1 }, [])
          else (s, [])
      | .advResults =>
          if s.cursor < (s.items.length : Int) - 1 ∧ s.cursor < 18 then
            ({ s with cursor := s.cursor + 1 }, [])
          else if s.offset + s.items.length < s.total_count then
            do_adv_search_nav s (s.offset + 20) resp
          else (s, [])
      | _ =>
          if s.cursor < (s.items.length : Int) - 1 then
            ({ s with cursor := s.cursor + 1 }, [])
          else (s, [])
  | .space =>
      if s.page = .advSearch ∧ ¬ s.adv_editing then
        if s.adv_cursor = 0 then
          ({ s with adv_category := (s.adv_category + 1) % 4 }, [])
        else if s.adv_cursor = 3 then
          ({ s with adv_type := (s.adv_type + 1) % 5 }, [])
        else if s.adv_cursor = 4 then
          ({ s with adv_top200 := ! s.adv_top200 }, [])
        else (s, [])
      else (s, [])
  | .right =>
      if s.page = .cats then enterCategory s resp else (s, [])
  | .enter =>
      match s.page with
      | .cats => enterCategory s resp
      | .settings =>
          if s.settings_cursor = 0 then
            ({ s with settings_editing := ! s.settings_editing }, [])
          else ({ s with page := .cats }, [])
      | .advSearch =>
          if s.adv_editing then ({ s with adv_editing := false }, [])
          else if s.adv_cursor = 1 ∨ s.adv_cursor = 2 then
            ({ s with adv_editing := true }, [])
          else if s.adv_cursor = 5 then
            let r := do_adv_search_nav s 0 resp
            if 0 < r.1.items.length then ({ r.1 with page := .advResults }, r.2)
            else (r.1, r.2)
          else (s, [])
      | .advResults =>
          if 0 < s.items.length then
            (s, [Cmd.runCmd (s.items.getD s.cursor.toNat (0, [])).1])
          else (s, [])
      | _ =>
          if 0 < s.items.length then
            (s, [Cmd.runCmd (s.items.getD s.cursor.toNat (0, [])).1])
          else (s, [])
  | .back =>
      match s.page with
      | .settings =>
          if s.settings_editing ∧ 0 < s.server_host.length then
            ({ s with server_host := s.server_host.dropLast }, [])
          else if ¬ s.settings_editing then ({ s with page := .cats }, [])
          else (s, [])
      | .search =>
          if 0 < s.search_query.length then
            let q := s.search_query.dropLast
            let s1 := { s with search_query := q }
            if 2 ≤ q.length then do_search_nav s1 0 resp
            else ({ s1 with items := [], total_count := 0 }, [])
          else load_categories_nav s resp
      | .list => load_categories_nav s resp
      | .advSearch =>
          if s.adv_editing then
            if s.adv_cursor = 1 ∧ 0 < s.adv_title.length then
              ({ s with adv_title := s.adv_title.dropRight 1 }, [])
            else if s.adv_cursor = 2 ∧ 0 < s.adv_group.length then
              ({ s with adv_group := s.adv_group.dropRight 1 }, [])
            else (s, [])
          else load_categories_nav s resp
      | .advResults => ({ s with page := .advSearch }, [])
      | _ => (s, [])
  | .next =>
      if s.page = .list ∧ s.offset + s.items.length < s.total_count then
        load_entries_nav s s.current_category (s.offset + 20) resp
      else if s.page = .advResults ∧ s.offset + s.items.length < s.total_count then
        do_adv_search_nav s (s.offset + 20) resp
      else (s, [])
  | .prev =>
      if s.page = .list ∧ 0 < s.offset then
        load_entries_nav s s.current_category (max (s.offset - 20) 0) resp
      else if s.page = .advResults ∧ 0 < s.offset then
        do_adv_search_nav s (max (s.offset - 20) 0) resp
      else (s, [])
  | .infoKey =>
      if (s.page = .list ∨ s.page = .search ∨ s.page = .advResults)
          ∧ 0 < s.items.length then
        let id := (s.items.getD s.cursor.toNat (0, [])).1
        let r := fetch_info s.info resp
        let s1 := { s with info_return_page := s.page, info := r.2.1 }
        (if r.1 then { s1 with page := .info } else s1, [Cmd.infoCmd id])
      else (s, [])
  | .exitInfo =>
      if s.page = .info then ({ s with page := s.info_return_page }, [])
      else (s, [])
  | .char c =>
      if s.page = .search ∧ (('A' ≤ c ∧ c ≤ 'Z') ∨ ('0' ≤ c ∧ c ≤ '9')) then
        if s.search_query.length < 30 then
          let q := s.search_query ++ [c]
          let s1 := { s with search_query := q }
          if 2 ≤ q.length then do_search_nav s1 0 resp
          else (s1, [])
        else (s, [])
      else if s.page = .settings ∧ s.settings_editing
          ∧ (('0' ≤ c ∧ c ≤ '9') ∨ c = '.') then
        if s.server_host.length < 30 then
          ({ s with server_host := s.server_host ++ [c] }, [])
        else (s, [])
      else if s.page = .advSearch ∧ s.adv_editing
          ∧ (('A' ≤ c ∧ c ≤ 'Z') ∨ ('0' ≤ c ∧ c ≤ '9') ∨ c = '_') then
        if s.adv_cursor = 1 ∧ s.adv_title.length < 22 then
          ({ s with adv_title := s.adv_title.push c }, [])
        else if s.adv_cursor = 2 ∧ s.adv_group.length < 22 then
          ({ s with adv_group := s.adv_group.push c }, [])
        else (s, [])
      else (s, [])

/-! ## Invariants and concrete scenario inputs -/

/-- The cursor/selection invariant of the navigation state: whenever the
item list is non-empty the cursor denotes a valid item, i.e.
`0 ≤ cursor < item_count`; when the list is empty no index denotes an
item, so no valid selection exists. -/
def cursorInv (s : NavState) : Prop :=
  s.items ≠ [] → 0 ≤ s.cursor ∧ s.cursor < (s.items.length : Int)

/-- Status-register oracle producing `n` error rounds followed by one
successful round: each error round is two idle reads then an error-flag
read; the final round is two idle reads, a clean status read, and a
completion read. -/
def errCycle (n : Nat) : List Nat :=
  (List.replicate n [0, 0, 8]).flatten ++ [0, 0, 0, 0x20]

/-- A `CATS` response whose header announces 21 categories and whose body
carries 21 category lines before the terminator. -/
def catsOverfull : List Line :=
  ['O', 'K', ' ', '2', '1'] :: List.replicate 21 ['a', '|', '1'] ++ [['.']]

/-- One well-formed entry body line `"1|A|g|y|t"`. -/
def entLine : Line := ['1', '|', 'A', '|', 'g', '|', 'y', '|', 't']

/-- A `LIST` response whose header reports `n = 5` entries but total
`t = 3`, followed by five entry lines and the terminator: an
inconsistent but syntactically well-formed server response. -/
def respC5 : List Line :=
  ['O', 'K', ' ', '5', ' ', '3'] :: List.replicate 5 entLine ++ [['.']]

/-- A consistent `LIST` response: header `OK 2 5`, two entries,
terminator. -/
def respGood : List Line :=
  ['O', 'K', ' ', '2', ' ', '5'] :: List.replicate 2 entLine ++ [['.']]

/-- Base navigation state: fresh globals as after program start-up. -/
def navBase : NavState :=
  { page := .cats, items := [], total_count := 0, cursor := 0, offset := 0,
    current_category := [], search_query := [], search_category := 0,
    adv_cursor := 0, adv_editing := false, adv_category := 0, adv_title := "",
    adv_group := "", adv_type := 0, adv_top200 := false, settings_cursor := 0,
    settings_editing := false, server_host := [], info_return_page := .cats,
    info := [] }

/-- List page showing a full second page: 20 items at offset 20 of a
100-item category, cursor on the first visible row. -/
def navList20 : NavState :=
  { navBase with page := .list, items := List.replicate 20 (1, ['a']),
                 total_count := 100, offset := 20,
                 current_category := ['G'] }

/-- The same page state on the advanced-results page. -/
def navAdv : NavState := { navList20 with page := .advResults }

/-- Advanced-results page with the cursor on the last visible row. -/
def navAdvBot : NavState := { navAdv with cursor := 18 }

/-- Search page with the two-character query `"AB"` and one result. -/
def navSearchAB : NavState :=
  { navBase with page := .search, search_query := ['A', 'B'],
                 items := [(1, ['x'])], total_count := 1 }

/-! ## Properties of the catalog protocol client -/

/-- The body loop of `load_entries` retains at most 20 items and, when
the header count `n` is non-negative, at most `n` items (invariant of
`while (item_count < MAX_ITEMS && item_count < n)`). -/
theorem entriesLoop_le (n : Int) (lines : List Line) :
    ∀ (count : Nat) (acc : List (Int × List Char)) (last : Line),
      acc.length = count → count ≤ 20 → (count : Int) ≤ n →
      (entriesLoop n count acc last lines).1.length ≤ 20
        ∧ ((entriesLoop n count acc last lines).1.length : Int) ≤ n := by
  induction lines with
  | nil =>
      intro count acc last hlen h20 hn
      have hfst : (entriesLoop n count acc last []).1 = acc := by
        unfold entriesLoop; split <;> rfl
      rw [hfst, hlen]
      exact ⟨h20, hn⟩
  | cons l rest ih =>
      intro count acc last hlen h20 hn
      by_cases hstop : 20 ≤ count ∨ n ≤ (count : Int)
      · rw [entriesLoop, if_pos hstop]
        rw [show (acc, l :: rest, last).1 = acc from rfl, hlen]
        exact ⟨h20, hn⟩
      · rw [entriesLoop, if_neg hstop]
        by_cases hdot : headIs '.' l
        · rw [if_pos hdot]
          rw [show (acc, rest, l).1 = acc from rfl, hlen]
          exact ⟨h20, hn⟩
        · rw [if_neg hdot]
          push_neg at hstop
          cases hp : parseEntryLine l with
          | some item =>
              exact ih (count + 1) (acc ++ [item]) l (by simp [hlen])
                (by omega) (by push_cast; omega)
          | none => exact ih count acc l hlen h20 hn
  
/-- When the last-read line is already the terminator the drain loop
reads nothing further. -/
theorem drainToTerm_of_term (last : Line) (lines : List Line)
    (h : headIs '.' last = true) : drainToTerm last lines = lines := by
  cases lines <;> simp [drainToTerm, h]

/-- Every pair the `fetch_info` body loop returns was either already in
the accumulator or has a non-empty value field. -/
theorem infoLoop_mem (lines : List Line) :
    ∀ (count : Nat) (acc : List (List Char × List Char)) (last : Line) p,
      p ∈ (infoLoop count acc last lines).1 → p ∈ acc ∨ p.2 ≠ [] := by
  induction lines with
  | nil =>
      intro count acc last p hp
      have hfst : (infoLoop count acc last []).1 = acc := by
        unfold infoLoop; split <;> rfl
      rw [hfst] at hp
      exact Or.inl hp
  | cons l rest ih =>
      intro count acc last p hp
      by_cases hstop : 12 ≤ count
      · rw [infoLoop, if_pos hstop] at hp
        exact Or.inl hp
      · rw [infoLoop, if_neg hstop] at hp
        by_cases hdot : headIs '.' l
        · rw [if_pos hdot] at hp
          exact Or.inl hp
        · rw [if_neg hdot] at hp
          cases hsplit : strchrSplit '|' l with
          | none =>
              rw [hsplit] at hp
              exact ih count acc l p hp
          | some pr =>
              rw [hsplit] at hp
              by_cases hval : pr.2 = []
              · rw [show pr = (pr.1, pr.2) from rfl, hval] at hp
                simp only [if_pos rfl] at hp
                exact ih count acc l p hp
              · rw [show pr = (pr.1, pr.2) from rfl] at hp
                simp only [if_neg hval] at hp
                rcases ih _ _ _ p hp with hin | hne
                · rcases List.mem_append.mp hin with hin2 | hin2
                  · exact Or.inl hin2
                  · refine Or.inr ?_
                    have hpe : p = (pr.1.take 7, pr.2.take 31) := by
                      simpa using hin2
                    rw [hpe]
                    simp only [ne_eq, List.take_eq_nil_iff]
                    push_neg
                    exact ⟨by omega, hval⟩
                · exact Or.inr hne
  
/-- When no body line starts the terminator and every body line's value
field (the text after the separator) is empty, the `fetch_info` body
loop retains nothing and consumes the body and the terminator. -/
theorem infoLoop_all_empty (body : List Line) :
    ∀ (rest : List Line) (count : Nat) (acc : List (List Char × List Char))
      (last : Line), count < 12 →
      (∀ l ∈ body, headIs '.' l = false) →
      (∀ l ∈ body, ((strchrSplit '|' l).map Prod.snd).getD [] = []) →
      infoLoop count acc last (body ++ ['.'] :: rest) = (acc, rest, ['.']) := by
  induction body with
  | nil =>
      intro rest count acc last h12 _ _
      rw [List.nil_append, infoLoop, if_neg (by omega)]
      rw [if_pos (by rfl)]
  | cons l body ih =>
      intro rest count acc last h12 hdot hempty
      have hd := hdot l (by simp)
      have he := hempty l (by simp)
      rw [List.cons_append, infoLoop, if_neg (by omega), if_neg (by simp [hd])]
      cases hsplit : strchrSplit '|' l with
      | none =>
          exact ih rest count acc l h12 (fun x hx => hdot x (by simp [hx]))
            (fun x hx => hempty x (by simp [hx]))
      | some pr =>
          have hv : pr.2 = [] := by
            rw [hsplit] at he
            simpa using he
          rw [show pr = (pr.1, pr.2) from rfl, hv]
          simp only [if_pos rfl]
          exact ih rest count acc l h12 (fun x hx => hdot x (by simp [hx]))
            (fun x hx => hempty x (by simp [hx]))

/-- C1: `load_categories` against a response with more than 20 body
lines.  The code retains the first 20 categories but, unlike every other
response reader in `main.c`, has no drain loop: with 21 body lines it
stops reading after the 20th retained line, leaving the 21st body line
and the terminator unread in the stream for the next command. -/
theorem load_categories_overfull :
    (load_categories catsOverfull).items.length = 20
  ∧ (load_categories catsOverfull).rest = [['a', '|', '1'], ['.']] := by
  constructor <;> decide

/-- C5 (amended): for every response whose header reports a non-negative
count `n` and total `t`, `load_entries` retains at most `min n 20`
items; and provided the header is consistent (`start + n ≤ t`), the
invariant `offset + item_count ≤ total_count` holds after the call. -/
theorem load_entries_bounds (start oldTotal : Int) (lines : List Line)
    (hn : 0 ≤ (entriesHeader (lines.headD []) oldTotal).1) :
    ((load_entries start oldTotal lines).items.length : Int)
        ≤ min (entriesHeader (lines.headD []) oldTotal).1 20
  ∧ (start + (entriesHeader (lines.headD []) oldTotal).1
        ≤ (entriesHeader (lines.headD []) oldTotal).2 →
      (load_entries start oldTotal lines).offset
          + ((load_entries start oldTotal lines).items.length : Int)
        ≤ (load_entries start oldTotal lines).total) := by
  have hb := entriesLoop_le (entriesHeader (lines.headD []) oldTotal).1
    lines.tail 0 [] (lines.headD []) rfl (by omega) hn
  have hitems : (load_entries start oldTotal lines).items
      = (entriesLoop (entriesHeader (lines.headD []) oldTotal).1 0 []
          (lines.headD []) lines.tail).1 := rfl
  have hoff : (load_entries start oldTotal lines).offset = start := rfl
  have htot : (load_entries start oldTotal lines).total
      = (entriesHeader (lines.headD []) oldTotal).2 := rfl
  constructor
  · rw [hitems]
    omega
  · intro hcons
    rw [hitems, hoff, htot]
    omega

/-- C5 counterexample: the response `respC5` reports `n = 5`, `t = 3`;
`load_entries` at offset 0 retains all five entries, so
`offset + item_count = 5 > 3 = total_count`: the claimed inequality
fails on an inconsistent (but well-formed) server response. -/
theorem load_entries_total_counterexample :
    entriesHeader (respC5.headD []) 0 = (5, 3)
  ∧ (load_entries 0 0 respC5).offset = 0
  ∧ (load_entries 0 0 respC5).items.length = 5
  ∧ (load_entries 0 0 respC5).total = 3
  ∧ ¬ ((load_entries 0 0 respC5).offset
        + ((load_entries 0 0 respC5).items.length : Int)
      ≤ (load_entries 0 0 respC5).total) := by
  refine ⟨by decide, by decide, by decide, by decide, by decide⟩

/-- C5 witness: the bounds instantiated on the consistent response
`respGood` (`n = 2`, `t = 5`, offset 0). -/
theorem load_entries_bounds_witness :
    ((load_entries 0 0 respGood).items.length : Int)
        ≤ min (entriesHeader (respGood.headD []) 0).1 20
  ∧ (load_entries 0 0 respGood).offset
        + ((load_entries 0 0 respGood).items.length : Int)
      ≤ (load_entries 0 0 respGood).total :=
  ⟨(load_entries_bounds 0 0 respGood (by decide)).1,
   (load_entries_bounds 0 0 respGood (by decide)).2 (by decide)⟩

/-- C6: with a non-error header, a response in which every body line's
value field is empty leaves the info record empty, is drained through
the terminator, and yields a failure result; in general a body line is
retained only when its value field is non-empty. -/
theorem fetch_info_empty_values :
    (∀ (prev : List (List Char × List Char)) (header : Line)
        (body rest : List Line),
        headIs 'E' header = false →
        (∀ l ∈ body, headIs '.' l = false) →
        (∀ l ∈ body, ((strchrSplit '|' l).map Prod.snd).getD [] = []) →
        fetch_info prev (header :: (body ++ ['.'] :: rest)) = (false, [], rest))
  ∧ ∀ (prev : List (List Char × List Char)) (header : Line)
      (lines : List Line) p,
      headIs 'E' header = false →
      p ∈ (fetch_info prev (header :: lines)).2.1 → p.2 ≠ [] := by
  constructor
  · intro prev header body rest hE hdot hempty
    have hloop := infoLoop_all_empty body rest 0 [] header (by omega) hdot hempty
    rw [fetch_info]
    simp only [List.headD_cons, List.tail_cons]
    rw [if_neg (by simp [hE])]
    simp only [hloop]
    rw [drainToTerm_of_term _ _ (by rfl)]
    rfl
  · intro prev header lines p hE hp
    rw [fetch_info] at hp
    simp only [List.headD_cons, List.tail_cons] at hp
    rw [if_neg (by simp [hE])] at hp
    rcases infoLoop_mem lines 0 [] header p hp with hin | hne
    · simp at hin
    · exact hne

/-- C6 witness: the property instantiated on the concrete response
`OK`, body `"N|"`, terminator, trailing line `"z"`. -/
theorem fetch_info_empty_values_witness :
    fetch_info [] (['O', 'K'] :: ([['N', '|']] ++ ['.'] :: [['z']]))
        = (false, [], [['z']])
  ∧ ∀ p, p ∈ (fetch_info [] (['O', 'K'] :: [['N', '|', 'v'], ['.']])).2.1
      → p.2 ≠ [] :=
  ⟨fetch_info_empty_values.1 [] ['O', 'K'] [['N', '|']] [['z']]
      (by decide) (by decide) (by decide),
   fun p => fetch_info_empty_values.2 [] ['O', 'K'] [['N', '|', 'v'], ['.']] p
      (by decide)⟩

/-- C4: with all advanced filters unset the emitted command line is
exactly `ADVSEARCH <offset> 20`; in general each filter clause is
appended exactly when its field is set. -/
theorem adv_search_command_unset :
    (∀ start : Int,
      adv_search_command start 0 "" "" 0 false
        = "ADVSEARCH " ++ toString start ++ " 20")
  ∧ ∀ (start : Int) (cat : Nat) (title group : String) (ty : Nat) (top : Bool),
      adv_search_command start cat title group ty top
        = ((((("ADVSEARCH " ++ toString start ++ " 20")
            ++ (if cat > 0 then " cat=" ++ search_cat_names cat else ""))
            ++ (if title ≠ "" then " title=" ++ title else ""))
            ++ (if group ≠ "" then " group=" ++ group else ""))
            ++ (if ty > 0 then " type=" ++ adv_type_names ty else ""))
            ++ (if top then " top200=1" else "") := by
  constructor
  · intro start
    rfl
  · intro start cat title group ty top
    rw [adv_search_command]
    split_ifs <;> simp only [String.append_empty, String.append_assoc]

/-! ## Properties of the line reader and the command channel -/

/-- The line loop always stops on end of file (0) or a line feed (10),
and never stores a carriage return (13) in the assembled line. -/
theorem nextlineAux_props (s : NetState) :
    ((nextlineAux false s).2.1 = 0 ∨ (nextlineAux false s).2.1 = 10)
  ∧ (13 : Nat) ∉ (nextlineAux false s).1 := by
  induction s using nextlineAux.induct false with
  | case1 x c s' h hc =>
      rw [nextlineAux.eq_def]
      simp only [h]
      rw [dif_pos hc]
      exact ⟨hc, by simp⟩
  | case2 x s' h hc ih =>
      rw [nextlineAux.eq_def]
      simp only [h]
      simpa using ih
  | case3 x c s' h hc h13 ih =>
      rw [nextlineAux.eq_def]
      simp only [h]
      rw [dif_neg hc, if_neg h13]
      refine ⟨ih.1, ?_⟩
      simp only [Bool.false_eq_true, if_neg, List.mem_cons, not_or]
      exact ⟨fun he => h13 he.symm, ih.2⟩

/-- C3 (amended): `uci_tcp_nextline` stops at a line feed or at end of
file, stores no carriage return, and its flag is true exactly when the
assembled line is non-empty or the read stopped at a line feed (rather
than "or EOF was seen", as the original sentence put it). -/
theorem uci_tcp_nextline_props (s : NetState) :
    ((uci_tcp_nextline s).2.1 = true ↔
        ((uci_tcp_nextline s).1 ≠ [] ∨ (nextlineAux false s).2.1 = 10))
  ∧ (13 : Nat) ∉ (uci_tcp_nextline s).1
  ∧ ((nextlineAux false s).2.1 = 0 ∨ (nextlineAux false s).2.1 = 10) := by
  have hp := nextlineAux_props s
  refine ⟨?_, hp.2, hp.1⟩
  rw [uci_tcp_nextline]
  rcases hp.1 with h0 | h10
  · rw [h0]
    simp [List.length_eq_zero]
  · rw [h10]
    simp

/-- C3 counterexample: at immediate end of file (`next_char` returns 0
at once) the assembled line is empty and the returned flag is false,
although end of file was seen — refuting the flag reading "non-empty or
saw EOF". -/
theorem uci_tcp_nextline_eof_counterexample :
    (uci_tcp_nextchar ⟨[], 0, 0, []⟩).1 = 0
  ∧ (uci_tcp_nextline ⟨[], 0, 0, []⟩).1 = []
  ∧ (uci_tcp_nextline ⟨[], 0, 0, []⟩).2.1 = false := by
  have hstep : uci_tcp_nextchar ⟨[], 0, 0, []⟩
      = (0, ⟨[0, 0], 0, 0, []⟩) := rfl
  have haux : nextlineAux false ⟨[], 0, 0, []⟩
      = ([], 0, ⟨[0, 0], 0, 0, []⟩) := by
    rw [nextlineAux.eq_def]
    simp [hstep]
  refine ⟨rfl, ?_, ?_⟩ <;> rw [uci_tcp_nextline, haux] <;> rfl

/-- An idle wait on a status oracle starting with two clear reads
succeeds immediately. -/
theorem waitIdle_idle (l : List Nat) : waitIdle (0 :: 0 :: l) = some l := by
  rw [waitIdle.eq_def]
  simp

/-- A run whose oracle is two idle reads, a clean status and a
completion read: one submission, no retry. -/
theorem sendLoop_zero (frame : List Nat) :
    sendLoop frame [0, 0, 0, 0x20]
      = some (frame.map ChanEv.data ++ [ChanEv.ctrl 0x01], []) := by
  rw [sendLoop.eq_def]
  split
  · rename_i heq
    rw [waitIdle_idle] at heq
    cases heq
  · rename_i st1 heq
    rw [waitIdle_idle] at heq
    cases heq
    simp [waitComplete]

/-- A run whose oracle starts with two idle reads and an error-flag
status: one full submission, a push, an error clear, then the run
continues on the remaining oracle. -/
theorem sendLoop_err_step (frame : List Nat) (t : List Nat) :
    sendLoop frame (0 :: 0 :: 8 :: t)
      = match sendLoop frame t with
        | none => none
        | some (tr, rest) =>
            some (frame.map ChanEv.data
              ++ [ChanEv.ctrl 0x01, ChanEv.ctrl 0x08] ++ tr, rest) := by
  rw [sendLoop.eq_def]
  split
  · rename_i heq
    rw [waitIdle_idle] at heq
    cases heq
  · rename_i st1 heq
    rw [waitIdle_idle] at heq
    cases heq
    simp

/-- An empty status oracle cannot complete a submission: the idle wait
is still polling. -/
theorem sendLoop_nil (frame : List Nat) : sendLoop frame [] = none := by
  rw [sendLoop.eq_def]
  split
  · rfl
  · rename_i st1 heq
    rw [waitIdle.eq_def] at heq
    cases heq

/-- Shape of every completed `uci_sendcommand` run: the write trace is
`k` full submissions each ending in a push and an error clear, followed
by one full submission ending in a push that saw no error flag. -/
theorem sendLoop_shape (frame : List Nat) :
    ∀ (statuses : List Nat) (tr : List ChanEv) (rest : List Nat),
      sendLoop frame statuses = some (tr, rest) →
      ∃ k, tr = submissionTrace frame k := by
  have key : ∀ (N : Nat) (statuses : List Nat), statuses.length ≤ N →
      ∀ (tr : List ChanEv) (rest : List Nat),
        sendLoop frame statuses = some (tr, rest) →
        ∃ k, tr = submissionTrace frame k := by
    intro N
    induction N with
    | zero =>
        intro statuses hlen tr rest h
        have hnil : statuses = [] := List.length_eq_zero.mp (Nat.le_zero.mp hlen)
        subst hnil
        rw [sendLoop_nil] at h
        cases h
    | succ N ihN =>
        intro statuses hlenN tr rest h
        rw [sendLoop.eq_def] at h
        split at h
        · cases h
        · rename_i st1 hIdle
          have hlen := waitIdle_length statuses st1 hIdle
          split at h
          · cases h
          · rename_i e st2
            by_cases he : e &&& 8 ≠ 0
            · rw [if_pos he] at h
              cases hrec : sendLoop frame st2 with
              | none => rw [hrec] at h; cases h
              | some pr =>
                  obtain ⟨tr2, rest2⟩ := pr
                  rw [hrec] at h
                  simp only [Option.some.injEq, Prod.mk.injEq] at h
                  obtain ⟨k, hk⟩ := ihN st2
                    (by simp only [List.length_cons] at hlen; omega)
                    tr2 rest2 hrec
                  refine ⟨k + 1, ?_⟩
                  rw [← h.1, hk]
                  rfl
            · rw [if_neg he] at h
              cases hc : waitComplete st2 with
              | none => rw [hc] at h; cases h
              | some st3 =>
                  rw [hc] at h
                  simp only [Option.some.injEq, Prod.mk.injEq] at h
                  exact ⟨0, by rw [← h.1]; rfl⟩
  exact fun statuses => key statuses.length statuses (le_refl _)

/-- C7: unbounded internal retry of `uci_sendcommand`.  First part: for
every frame and every number `n` of transient channel errors, the
submission completes after exactly `n + 1` full frame submissions, each
failed one followed by an error clear — so no bound on the retry count
and no error surfaced to the caller.  Second part: every completed run's
write trace consists of some number of full submissions each ending in
an error clear, followed by one full submission whose push saw no error
flag and that was followed by the completion wait. -/
theorem uci_sendcommand_retries :
    (∀ (frame : List Nat) (n : Nat),
        sendLoop frame (errCycle n) = some (submissionTrace frame n, []))
  ∧ ∀ (frame statuses : List Nat) (tr : List ChanEv) (rest : List Nat),
      sendLoop frame statuses = some (tr, rest) →
      ∃ k, tr = submissionTrace frame k := by
  constructor
  · intro frame n
    induction n with
    | zero =>
        have h0 : errCycle 0 = [0, 0, 0, 0x20] := by simp [errCycle]
        rw [h0, sendLoop_zero]
        rfl
    | succ n ih =>
        have hcyc : errCycle (n + 1) = 0 :: 0 :: 8 :: errCycle n := by
          simp [errCycle, List.replicate_succ]
        rw [hcyc, sendLoop_err_step, ih]
        rfl
  · exact fun frame => sendLoop_shape frame

/-- C7 witness: the run with exactly one transient error on the frame
`[3, 7]` completes, and its trace has the shape the second part
guarantees. -/
theorem uci_sendcommand_retries_witness :
    sendLoop [3, 7] (errCycle 1) = some (submissionTrace [3, 7] 1, [])
  ∧ ∃ k, submissionTrace [3, 7] 1 = submissionTrace [3, 7] k :=
  ⟨uci_sendcommand_retries.1 [3, 7] 1,
   uci_sendcommand_retries.2 [3, 7] (errCycle 1) (submissionTrace [3, 7] 1) []
     (uci_sendcommand_retries.1 [3, 7] 1)⟩

/-- C9: every socket write operation and every connect resets the
line-reader buffer state: `uci_data_index = 0` and `uci_data_len = 0` on
return, and a subsequent `uci_tcp_nextchar` takes the refill path on the
socket alone — the result is `refill 0 s.chunks`, which does not depend
on any byte that was buffered before the call, so stale buffered bytes
are never returned. -/
theorem socket_ops_reset_buffer (s : NetState) (resp : List Nat) :
    ((uci_socket_write s resp).index = 0 ∧ (uci_socket_write s resp).len = 0)
  ∧ ((uci_socket_write_ascii s resp).index = 0
      ∧ (uci_socket_write_ascii s resp).len = 0)
  ∧ ((uci_socket_write_char s resp).index = 0
      ∧ (uci_socket_write_char s resp).len = 0)
  ∧ ((uci_tcp_connect s resp).2.index = 0 ∧ (uci_tcp_connect s resp).2.len = 0)
  ∧ ((uci_udp_connect s resp).2.index = 0 ∧ (uci_udp_connect s resp).2.len = 0)
  ∧ uci_tcp_nextchar (uci_socket_write s resp) = refill 0 s.chunks
  ∧ uci_tcp_nextchar (uci_socket_write_ascii s resp) = refill 0 s.chunks
  ∧ uci_tcp_nextchar (uci_socket_write_char s resp) = refill 0 s.chunks
  ∧ uci_tcp_nextchar (uci_tcp_connect s resp).2 = refill 0 s.chunks
  ∧ uci_tcp_nextchar (uci_udp_connect s resp).2 = refill 0 s.chunks :=
  ⟨⟨rfl, rfl⟩, ⟨rfl, rfl⟩, ⟨rfl, rfl⟩, ⟨rfl, rfl⟩, ⟨rfl, rfl⟩,
   rfl, rfl, rfl, rfl, rfl⟩

/-! ## Properties of the navigation state machine -/

/-- A state whose cursor is 0 satisfies the cursor invariant. -/
theorem cursorInv_zero (s : NavState) (h0 : s.cursor = 0) : cursorInv s := by
  intro hne
  refine ⟨?_, ?_⟩
  · rw [h0]
  · rw [h0]
    exact_mod_cast List.length_pos.mpr hne

set_option maxHeartbeats 2000000 in
/-- C8: every transition of the dispatch loop preserves the cursor
invariant: when the item list is non-empty the cursor stays within
`[0, item_count - 1]`; when it is empty no index is a valid selection. -/
theorem step_preserves_cursorInv (s : NavState) (k : Key) (resp : List Line)
    (h : cursorInv s) :
    cursorInv (step s k resp).1
  ∧ ((step s k resp).1.items = []
      → ¬ ∃ i : Nat, i < (step s k resp).1.items.length) := by
  refine ⟨?_, fun hemp => by simp [hemp]⟩
  · obtain ⟨pg, items, total, cur, off, cat, q, sc, ac, ae, acat, atl, agr,
      aty, atp, stc, ste, host, irp, inf⟩ := s
    simp only [cursorInv] at h
    cases k <;> cases pg <;>
      simp only [step, load_categories_nav, load_entries_nav, do_search_nav,
        do_adv_search_nav, enterCategory, cursorInv] <;>
      (try split_ifs) <;>
      intro hne <;>
      (try dsimp only at hne) <;>
      (try dsimp only) <;>
      (try exact h hne) <;>
      (try exact absurd rfl hne) <;>
      have hlen := List.length_pos.mpr hne <;>
      first
        | exact ⟨le_refl 0, by exact_mod_cast hlen⟩
        | (have hh := h hne; constructor <;> omega)
        | (constructor <;> omega)

/-- C8 witness: the invariant-preservation theorem applied to a full
list page on a `down` key. -/
theorem step_preserves_cursorInv_witness :
    cursorInv (step navList20 .down []).1
  ∧ ((step navList20 .down []).1.items = []
      → ¬ ∃ i : Nat, i < (step navList20 .down []).1.items.length) :=
  step_preserves_cursorInv navList20 .down [] (cursorInv_zero navList20 rfl)

/-- C2 counterexample: on the List results view with the cursor on the
first visible row and `offset = 20 > 0`, the `up` intent issues no
protocol command and leaves the state unchanged — there is no
previous-page fetch outside the AdvancedResults view. -/
theorem results_view_up_counterexample :
    navList20.page = Page.list
  ∧ navList20.cursor = 0
  ∧ 0 < navList20.offset
  ∧ step navList20 .up [] = (navList20, []) := by
  refine ⟨rfl, rfl, by decide, by decide⟩

/-- C2 (amended): on the AdvancedResults view only, `up` with the cursor
on the first row and a positive offset fetches the previous page
(offset clamped at 0) and puts the cursor at
`min (new_item_count - 1) 18` (19 visible rows); `down` with the cursor
unable to move further and more results available fetches the next page
and puts the cursor at 0. -/
theorem adv_results_page_shift (s : NavState) (resp : List Line)
    (hpage : s.page = .advResults) :
    (s.cursor = 0 → 0 < s.offset →
        (step s .up resp).2 = [Cmd.advCmd (max (s.offset - 20) 0)]
      ∧ (step s .up resp).1.items
          = (load_entries (max (s.offset - 20) 0) s.total_count resp).items
      ∧ (step s .up resp).1.offset = max (s.offset - 20) 0
      ∧ (step s .up resp).1.cursor
          = min (((load_entries (max (s.offset - 20) 0)
                s.total_count resp).items.length : Int) - 1) 18)
  ∧ (¬ (s.cursor < (s.items.length : Int) - 1 ∧ s.cursor < 18) →
        s.offset + (s.items.length : Int) < s.total_count →
        (step s .down resp).2 = [Cmd.advCmd (s.offset + 20)]
      ∧ (step s .down resp).1.items
          = (load_entries (s.offset + 20) s.total_count resp).items
      ∧ (step s .down resp).1.offset = s.offset + 20
      ∧ (step s .down resp).1.cursor = 0) := by
  obtain ⟨pg, items, total, cur, off, cat, q, sc, ac, ae, acat, atl, agr,
    aty, atp, stc, ste, host, irp, inf⟩ := s
  subst hpage
  constructor
  · intro hc ho
    dsimp only at hc ho
    simp only [step, do_adv_search_nav]
    rw [if_neg (by omega), if_pos (by simpa using ho)]
    exact ⟨rfl, rfl, rfl, rfl⟩
  · intro hcond hfetch
    dsimp only at hcond hfetch
    simp only [step, do_adv_search_nav]
    rw [if_neg (by simpa using hcond), if_pos (by simpa using hfetch)]
    exact ⟨rfl, rfl, rfl, rfl⟩

/-- C2 witness: the AdvancedResults paging behavior on concrete states —
`up` at the top of page 2 and `down` on the last visible row. -/
theorem adv_results_page_shift_witness :
    ((step navAdv .up respGood).2 = [Cmd.advCmd (max (navAdv.offset - 20) 0)]
      ∧ (step navAdv .up respGood).1.items
          = (load_entries (max (navAdv.offset - 20) 0)
              navAdv.total_count respGood).items
      ∧ (step navAdv .up respGood).1.offset = max (navAdv.offset - 20) 0
      ∧ (step navAdv .up respGood).1.cursor
          = min (((load_entries (max (navAdv.offset - 20) 0)
                navAdv.total_count respGood).items.length : Int) - 1) 18)
  ∧ ((step navAdvBot .down respGood).2 = [Cmd.advCmd (navAdvBot.offset + 20)]
      ∧ (step navAdvBot .down respGood).1.items
          = (load_entries (navAdvBot.offset + 20)
              navAdvBot.total_count respGood).items
      ∧ (step navAdvBot .down respGood).1.offset = navAdvBot.offset + 20
      ∧ (step navAdvBot .down respGood).1.cursor = 0) :=
  ⟨(adv_results_page_shift navAdv respGood rfl).1 rfl (by decide),
   (adv_results_page_shift navAdvBot respGood rfl).2 (by decide) (by decide)⟩

/-- C10: on the Search page no transition emits a `SEARCH` command whose
query is shorter than 2 characters, and deleting a character that leaves
the query below 2 characters clears the result page locally
(`item_count = 0`, `total_count = 0`) without issuing any command. -/
theorem search_page_min_query (s : NavState) (resp : List Line)
    (hpage : s.page = .search) :
    (∀ (k : Key) (qc : List Char) (c : Nat) (o : Int),
        Cmd.searchCmd qc c o ∈ (step s k resp).2 → 2 ≤ qc.length)
  ∧ (s.search_query ≠ [] → s.search_query.length ≤ 2 →
        (step s .back resp).2 = []
      ∧ (step s .back resp).1.items = []
      ∧ (step s .back resp).1.total_count = 0) := by
  obtain ⟨pg, items, total, cur, off, cat, q, sc, ac, ae, acat, atl, agr,
    aty, atp, stc, ste, host, irp, inf⟩ := s
  subst hpage
  constructor
  · intro k qc c o hmem
    cases k <;>
      simp only [step, do_search_nav, do_adv_search_nav, load_categories_nav,
        load_entries_nav, enterCategory] at hmem <;>
      (try split_ifs at hmem) <;>
      simp_all
  · intro hq hlen2
    dsimp only at hq hlen2
    simp only [step]
    rw [if_pos (by simpa using List.length_pos.mpr hq)]
    rw [if_neg (by simp only [List.length_dropLast]; omega)]
    exact ⟨rfl, rfl, rfl⟩

/-- C10 witness: deleting a character of the two-character query `"AB"`
clears the result page without emitting a command. -/
theorem search_page_min_query_witness :
    (step navSearchAB .back []).2 = []
  ∧ (step navSearchAB .back []).1.items = []
  ∧ (step navSearchAB .back []).1.total_count = 0 :=
  (search_page_min_query navSearchAB [] rfl).2 (by decide) (by decide)

end C64Client
